import Mathlib

/-!
Verification of `scripts/update_data.py` (haute-archive data pipeline).

This file gives a shallow embedding of the pipeline in Lean 4.  Pure Python
functions become Lean functions; the network (requests session, feedparser,
redirect resolution, og:image fetching) is modelled as an explicit
environment record `Env` of pure response functions, as the spec's §9 design
notes themselves suggest ("model explicitly as functions returning a result
type").  The JSON document store is modelled as a `Store` of per-file states
(missing / corrupt / parsed document); `load_json` returns `Except` to model
`json.load` raising on a corrupt file.  Machine integers in the SHA-1 model
are `Nat` with explicit reduction `% 2^32`.
-/

namespace UpdateData

/-! ## Constants from the script header -/

/-- `MAX_ITEMS_PER_BRAND = 8` — how many news items at most to take per brand
per run. -/
def MAX_ITEMS_PER_BRAND : Nat := 8

/-- `TIMEOUT = 12` (network timeout; carried for fidelity, the timeout itself
is absorbed by the environment model). -/
def TIMEOUT : Nat := 12

/-- `UA` — the fixed user-agent string installed on the shared session. -/
def UA : String := "fashionbook-bot/1.0 (+https://github.com/)"

/-! ## Identity hasher: `slug_id`

`slug_id(s) = hashlib.sha1(s.encode("utf-8")).hexdigest()[:16]`.

`hashlib.sha1` is the Python standard library; we embed the SHA-1 algorithm
(FIPS 180) it implements, over `Nat` with explicit `% 2^32` wrap-around, and
UTF-8 encoding of the input string. -/

/-- Wrap a `Nat` to a 32-bit word, `n % 2^32`. -/
def w32 (n : Nat) : Nat := n % 4294967296

/-- Left-rotation of a 32-bit word by `k` bits. -/
def rotl (k w : Nat) : Nat := w32 ((w <<< k) ||| ((w % 4294967296) >>> (32 - k)))

/-- UTF-8 encoding of a single character as a list of byte values. -/
def utf8Bytes (c : Char) : List Nat :=
  let n := c.toNat
  if n < 128 then [n]
  else if n < 2048 then [192 ||| (n >>> 6), 128 ||| (n &&& 63)]
  else if n < 65536 then
    [224 ||| (n >>> 12), 128 ||| ((n >>> 6) &&& 63), 128 ||| (n &&& 63)]
  else
    [240 ||| (n >>> 18), 128 ||| ((n >>> 12) &&& 63),
     128 ||| ((n >>> 6) &&& 63), 128 ||| (n &&& 63)]

/-- `s.encode("utf-8")` as a list of byte values. -/
def strBytes (s : String) : List Nat := (s.toList.map utf8Bytes).flatten

/-- The 8-byte big-endian encoding of the message bit length. -/
def sha1LenBytes (bitLen : Nat) : List Nat :=
  [(bitLen >>> 56) % 256, (bitLen >>> 48) % 256, (bitLen >>> 40) % 256,
   (bitLen >>> 32) % 256, (bitLen >>> 24) % 256, (bitLen >>> 16) % 256,
   (bitLen >>> 8) % 256, bitLen % 256]

/-- SHA-1 message padding: append `0x80`, zero bytes up to 56 mod 64, then the
64-bit big-endian bit length. -/
def sha1pad (msg : List Nat) : List Nat :=
  msg ++ [128] ++ List.replicate ((119 - msg.length % 64) % 64) 0
      ++ sha1LenBytes (8 * msg.length)

/-- Split a byte list into 64-byte chunks (structural recursion on a fuel
bound; each step consumes at least one byte, so `l.length` fuel suffices). -/
def chunks64Aux : Nat → List Nat → List (List Nat)
  | 0, _ => []
  | fuel + 1, l => if l = [] then [] else l.take 64 :: chunks64Aux fuel (l.drop 64)

/-- Split a byte list into 64-byte chunks. -/
def chunks64 (l : List Nat) : List (List Nat) := chunks64Aux l.length l

/-- Combine bytes into 32-bit big-endian words. -/
def toWords : List Nat → List Nat
  | a :: b :: c :: d :: rest => (a * 16777216 + b * 65536 + c * 256 + d) :: toWords rest
  | _ => []

/-- Message-schedule expansion: extend the 16 chunk words to 80 words,
`w[i] = rotl 1 (w[i-3] xor w[i-8] xor w[i-14] xor w[i-16])`.  `fuel` counts
the remaining words to append (64 for a full schedule). -/
def sha1Expand (w : List Nat) : Nat → List Nat
  | 0 => w
  | f + 1 =>
    let i := w.length
    sha1Expand
      (w ++ [rotl 1 ((w.getD (i-3) 0) ^^^ (w.getD (i-8) 0) ^^^
                     (w.getD (i-14) 0) ^^^ (w.getD (i-16) 0))]) f

/-- SHA-1 round function for round `t`. -/
def sha1F (t b c d : Nat) : Nat :=
  if t < 20 then (b &&& c) ||| ((b ^^^ 4294967295) &&& d)
  else if t < 40 then b ^^^ c ^^^ d
  else if t < 60 then (b &&& c) ||| (b &&& d) ||| (c &&& d)
  else b ^^^ c ^^^ d

/-- SHA-1 round constant for round `t`. -/
def sha1K (t : Nat) : Nat :=
  if t < 20 then 1518500249
  else if t < 40 then 1859775393
  else if t < 60 then 2400959708
  else 3395469782

/-- The 80 compression rounds: consumes the schedule words in order. -/
def sha1Loop : List Nat → Nat → Nat × Nat × Nat × Nat × Nat →
    Nat × Nat × Nat × Nat × Nat
  | [], _, s => s
  | wt :: rest, t, (a, b, c, d, e) =>
    sha1Loop rest (t + 1)
      (w32 (rotl 5 a + sha1F t b c d + e + sha1K t + wt), a, rotl 30 b, c, d)

/-- Process one 64-byte chunk, updating the running hash state. -/
def sha1Chunk (h : Nat × Nat × Nat × Nat × Nat) (chunk : List Nat) :
    Nat × Nat × Nat × Nat × Nat :=
  let r := sha1Loop (sha1Expand (toWords chunk) 64) 0 h
  (w32 (h.1 + r.1), w32 (h.2.1 + r.2.1), w32 (h.2.2.1 + r.2.2.1),
   w32 (h.2.2.2.1 + r.2.2.2.1), w32 (h.2.2.2.2 + r.2.2.2.2))

/-- The SHA-1 digest of a byte list, as five 32-bit words. -/
def sha1Digest (msg : List Nat) : Nat × Nat × Nat × Nat × Nat :=
  (chunks64 (sha1pad msg)).foldl sha1Chunk
    (1732584193, 4023233417, 2562383102, 271733878, 3285377520)

/-- Lowercase hexadecimal digit for a nibble value. -/
def hexDigit (n : Nat) : Char :=
  if n < 10 then Char.ofNat (48 + n) else Char.ofNat (87 + n)

/-- Fixed-width (8 hex digits, zero-padded) rendering of a 32-bit word,
matching `hexdigest`'s formatting. -/
def toHex8 (w : Nat) : List Char :=
  [hexDigit ((w >>> 28) % 16), hexDigit ((w >>> 24) % 16),
   hexDigit ((w >>> 20) % 16), hexDigit ((w >>> 16) % 16),
   hexDigit ((w >>> 12) % 16), hexDigit ((w >>> 8) % 16),
   hexDigit ((w >>> 4) % 16), hexDigit (w % 16)]

/-- The 40 characters of `hashlib.sha1(msg).hexdigest()`. -/
def sha1HexChars (msg : List Nat) : List Char :=
  toHex8 (sha1Digest msg).1 ++ toHex8 (sha1Digest msg).2.1 ++
  toHex8 (sha1Digest msg).2.2.1 ++ toHex8 (sha1Digest msg).2.2.2.1 ++
  toHex8 (sha1Digest msg).2.2.2.2

/-- `hashlib.sha1(msg).hexdigest()` as a string. -/
def sha1Hex (msg : List Nat) : String := String.mk (sha1HexChars msg)

/-- `slug_id(s)`: the first 16 characters (`h[:16]`) of the SHA-1 hexdigest of
the UTF-8 encoding of `s`. -/
def slug_id (s : String) : String :=
  String.mk ((sha1HexChars (strBytes s)).take 16)

/-- A character is a lowercase hexadecimal digit. -/
def isLowerHex (c : Char) : Bool :=
  ('0' ≤ c && c ≤ '9') || ('a' ≤ c && c ≤ 'f')

set_option maxRecDepth 4096 in
/-- FIPS 180 test vector: SHA-1 of the empty message (validates the SHA-1
embedding). -/
theorem sha1Hex_nil : sha1Hex [] = "da39a3ee5e6b4b0d3255bfef95601890afd80709" := by
  decide

set_option maxRecDepth 4096 in
/-- FIPS 180 test vector: SHA-1 of `"abc"` (validates the SHA-1 embedding and
the UTF-8 byte encoding). -/
theorem sha1Hex_abc :
    sha1Hex (strBytes "abc") = "a9993e364706816aba3e25717850c26c9cd0d89d" := by
  decide

/-! ## Date normalizer

`iso_to_ymd(dt) = dt.strftime("%Y-%m-%d")` and `parse_entry_date(entry)`.

A feedparser time struct (`published_parsed` / `updated_parsed`) is a tuple
whose first six fields are year, month, day, hour, minute, second; feedparser
yields `None` when the timestamp is absent or unparseable.  The script builds
`datetime.datetime(*tm[:6], tzinfo=utc).astimezone(utc)` — `astimezone(utc)`
on an already-UTC datetime is the identity, so only the calendar fields of
the struct reach the `%Y-%m-%d` formatting; no local-timezone conversion
occurs. -/

/-- The first six fields of a `time.struct_time`. -/
structure TimeS where
  y : Nat
  mo : Nat
  d : Nat
  h : Nat
  mi : Nat
  s : Nat
deriving Repr, DecidableEq

/-- Zero-pad a number to (at least) two digits, as `%m` / `%d` do. -/
def pad2 (n : Nat) : String := if n < 10 then "0" ++ toString n else toString n

/-- Zero-pad a number to (at least) four digits, as `%Y` does. -/
def pad4 (n : Nat) : String :=
  if n < 10 then "000" ++ toString n
  else if n < 100 then "00" ++ toString n
  else if n < 1000 then "0" ++ toString n
  else toString n

/-- `iso_to_ymd`: format the calendar day as `YYYY-MM-DD`. -/
def iso_to_ymd (t : TimeS) : String := pad4 t.y ++ "-" ++ pad2 t.mo ++ "-" ++ pad2 t.d

/-- One feed entry as produced by feedparser: `title`, `link` (missing/None
attributes collapse to `""`, as the script's `(getattr(e, ..., "") or "")`
does) and the optional parsed timestamps. -/
structure Entry where
  title : String
  link : String
  published : Option TimeS
  updated : Option TimeS
deriving Repr, DecidableEq

/-- `parse_entry_date`: the `published_parsed` timestamp if present, else
`updated_parsed`, else `None`; the result formatted as the UTC calendar
day. -/
def parse_entry_date (e : Entry) : Option String :=
  match e.published with
  | some tm => some (iso_to_ymd tm)
  | none =>
    match e.updated with
    | some tm => some (iso_to_ymd tm)
    | none => none

/-- Python `str.strip()`: remove leading and trailing whitespace.  (Defined
over the character list so it computes by kernel reduction; `String.trim`'s
positional implementation does not.) -/
def pyStrip (s : String) : String :=
  String.mk (((s.toList.dropWhile Char.isWhitespace).reverse.dropWhile
    Char.isWhitespace).reverse)

/-- Python `str.startswith(pat)`. -/
def pyStartsWith (s pat : String) : Bool := pat.toList.isPrefixOf s.toList

/-! ## Network environment

The outbound HTTP world (`SESSION.get`, feedparser's fetch+parse, and the
HTML meta-tag extraction input) is modelled as a record of pure functions.
`none` in a response position models a raised network exception. -/

/-- One `<meta>` tag of the fetched page, as BeautifulSoup exposes it:
optional `property`, `name` and `content` attributes. -/
structure MetaTag where
  property : Option String
  name : Option String
  content : Option String
deriving Repr, DecidableEq

/-- The response seen by `try_get_og_image`: `r.ok`, the `Content-Type`
header (absent modelled as `none`), and the parsed meta tags of `r.text` in
document order. -/
structure OgResponse where
  ok : Bool
  contentType : Option String
  metas : List MetaTag
deriving Repr, DecidableEq

/-- The pipeline's external world: redirect resolution responses, og:image
fetch responses, feed contents per feed URL, and the run's current UTC
time. -/
structure Env where
  /-- `SESSION.get(url, allow_redirects=True).url` for `resolve_final_url`;
  `none` models a raised exception. -/
  resolveResp : String → Option String
  /-- The response for `try_get_og_image`'s fetch; `none` models a raised
  exception. -/
  ogResp : String → Option OgResponse
  /-- `feedparser.parse(rss).entries` for a feed URL. -/
  feedEntries : String → List Entry
  /-- `datetime.datetime.now(datetime.timezone.utc)`. -/
  now : TimeS
  /-- `datetime.datetime.utcnow().isoformat() + "Z"`. -/
  nowIso : String

/-- `now_ymd`: the run's current UTC calendar day. -/
def now_ymd (env : Env) : String := iso_to_ymd env.now

/-- `resolve_final_url(url)`: the final URL after redirects (`r.url or url`,
so an empty/None response URL falls back to the original), or the original
URL on any exception. -/
def resolve_final_url (env : Env) (url : String) : String :=
  match env.resolveResp url with
  | some ru => if ru = "" then url else ru
  | none => url

/-- Python's `in` on strings: `pat` occurs as a contiguous substring. -/
def containsSub (pat : List Char) : List Char → Bool
  | [] => pat.isEmpty
  | c :: rest => pat.isPrefixOf (c :: rest) || containsSub pat rest

/-- `"text/html" in (r.headers.get("Content-Type") or "")` — substring
containment in the content type. -/
def contentTypeHtml (r : OgResponse) : Bool :=
  containsSub "text/html".toList (r.contentType.getD "").toList

/-- `soup.find("meta", property="og:image") or
soup.find("meta", attrs={"name": "og:image"})`: the first meta tag whose
`property` attribute is `og:image`, falling back to the first whose `name`
attribute is `og:image` only when no `property` match exists at all. -/
def ogTag (r : OgResponse) : Option MetaTag :=
  match r.metas.find? (fun t => t.property == some "og:image") with
  | some t => some t
  | none => r.metas.find? (fun t => t.name == some "og:image")

/-- `try_get_og_image(url)`: fetch the page; on failure status or non-HTML
content type return `None`; otherwise take the og:image meta tag (property
match first, name match as fallback), require a truthy (non-empty) `content`,
strip it, and require the `http` prefix; any exception yields `None`. -/
def try_get_og_image (env : Env) (url : String) : Option String :=
  match env.ogResp url with
  | none => none
  | some r =>
    if ¬ (r.ok = true ∧ contentTypeHtml r = true) then none
    else
      match ogTag r with
      | some t =>
        match t.content with
        | some c =>
          if c ≠ "" then
            if pyStartsWith (pyStrip c) "http" then some (pyStrip c) else none
          else none
        | none => none
      | none => none

/-! ## Query builder -/

/-- `normalize_brand_query(name)`. -/
def normalize_brand_query (name : String) : String :=
  name ++ " (runway OR collection OR show OR \"fashion week\")"

/-- An uppercase hexadecimal digit, for percent-encoding. -/
def hexUpper (n : Nat) : Char :=
  if n < 10 then Char.ofNat (48 + n) else Char.ofNat (55 + n)

/-- `%XX` percent-encoding of one byte. -/
def pctByte (b : Nat) : String :=
  String.mk ['%', hexUpper ((b >>> 4) % 16), hexUpper (b % 16)]

/-- `urllib.parse.quote_plus` on one character: space becomes `+`, the
always-safe characters (ASCII letters, digits, `_.-~`) pass through, and every
other character is percent-encoded byte-wise from its UTF-8 encoding. -/
def quoteChar (c : Char) : String :=
  if c = ' ' then "+"
  else if c.isAlphanum || c = '_' || c = '.' || c = '-' || c = '~' then
    String.singleton c
  else String.join ((utf8Bytes c).map pctByte)

/-- `urllib.parse.quote_plus`. -/
def quote_plus (s : String) : String := String.join (s.toList.map quoteChar)

/-- `google_news_rss_url(query)` with the default `hl="en-US"`, `gl="US"`,
`ceid="US:en"` parameters (the script always calls it with the defaults). -/
def google_news_rss_url (query : String) : String :=
  "https://news.google.com/rss/search?q=" ++ quote_plus query ++
    "&hl=en-US&gl=US&ceid=US:en"

/-! ## Document store -/

/-- One JSON document dict in `posts.json`.  Loaded documents may lack any
key (hence `Option` everywhere); documents created by this run set every
field.  `source_url` is the legacy field name consulted by the dedup seeding
alongside the current `sourceUrl`. -/
structure PostDoc where
  id : Option String
  brandId : Option String
  title : Option String
  date : Option String
  city : Option String
  season : Option String
  heroImageUrl : Option String
  sourceUrl : Option String
  source_url : Option String
  media : List Unit
deriving Repr, DecidableEq

/-- One element of `brands.json`: either a JSON object with optional `id` and
`name` keys, or some other JSON value (the `isinstance(b, dict)` check
fails). -/
inductive BrandDoc where
  | obj (id : Option String) (name : Option String)
  | other
deriving Repr, DecidableEq

/-- The `_meta.json` document. -/
structure MetaDoc where
  updatedAt : String
  newPostsAdded : Nat
  postsCount : Nat
  showsCount : Nat
  brandsCount : Nat
deriving Repr, DecidableEq

/-- The on-disk state of one named JSON document: absent, present but not
parseable as the expected structure, or present and parsed. -/
inductive FileState (α : Type) where
  | missing
  | corrupt
  | valid (doc : α)
deriving Repr, DecidableEq

/-- The data directory: the four documents the script touches.  `shows.json`
is an opaque pass-through sequence (only its length is observed), modelled as
`List Unit`. -/
structure Store where
  postsFile : FileState (List PostDoc)
  showsFile : FileState (List Unit)
  brandsFile : FileState (List BrandDoc)
  metaFile : FileState MetaDoc
deriving Repr, DecidableEq

/-- `load_json(name, default)`: a missing file yields the default; a file
that exists but is not valid JSON raises (`json.load` throws
`JSONDecodeError`); otherwise the parsed document is returned. -/
def load_json {α : Type} (fs : FileState α) (default : α) : Except String α :=
  match fs with
  | .missing => .ok default
  | .corrupt => .error "JSONDecodeError"
  | .valid doc => .ok doc

/-- The list a posts file holds (empty for a missing or corrupt file); the
collection "persisted" by a file state. -/
def docList (fs : FileState (List PostDoc)) : List PostDoc :=
  match fs with
  | .valid l => l
  | _ => []

/-! ## Pipeline orchestrator (`main`) -/

/-- Python `a or b` on strings: `b` exactly when `a` is empty. -/
def orElseStr (a b : String) : String := if a = "" then b else a

/-- The dedup seed contributed by one loaded post:
`p.get("sourceUrl") or p.get("source_url") or ""`. -/
def seedUrl (p : PostDoc) : String :=
  orElseStr (p.sourceUrl.getD "") (p.source_url.getD "")

/-- The `existing_urls` index seeded from the loaded posts (a set, modelled
as a list used only through membership): every non-empty per-post seed
URL. -/
def seedUrls (posts : List PostDoc) : List String :=
  (posts.map seedUrl).filter (fun u => u ≠ "")

/-- One brand tuple `(b["id"], b["name"])`, kept only for dict entries whose
`id` and `name` are both truthy (present and non-empty). -/
def brandItem : BrandDoc → Option (String × String)
  | .obj (some i) (some n) => if i ≠ "" ∧ n ≠ "" then some (i, n) else none
  | _ => none

/-- The mutable loop state of `main`: the dedup set and the accepted batch
(in production order). -/
structure LoopState where
  existing_urls : List String
  new_posts : List PostDoc
deriving Repr, DecidableEq

/-- The post object built for an accepted entry (the `obj = {...}` literal):
id derived from the final URL, the trimmed title, the entry date falling back
to the run's UTC day, the best-effort preview image, `city`/`season` null and
`media` empty. -/
def acceptPost (env : Env) (brand_id : String) (e : Entry) (final_url : String) :
    PostDoc where
  id := some (slug_id final_url)
  brandId := some brand_id
  title := some (pyStrip e.title)
  date := some ((parse_entry_date e).getD (now_ymd env))
  city := none
  season := none
  heroImageUrl := try_get_og_image env final_url
  sourceUrl := some final_url
  source_url := none
  media := []

/-- The per-entry loop for one brand (`for e in feed.entries`): stop once
`picked` reaches the cap, skip entries with empty trimmed title or link,
resolve the final URL, skip it if already seen, otherwise accept: record the
post, add the URL to the dedup set and bump `picked`. -/
def processEntries (env : Env) (brand_id : String) :
    List Entry → LoopState → Nat → LoopState
  | [], st, _ => st
  | e :: rest, st, picked =>
    if MAX_ITEMS_PER_BRAND ≤ picked then st
    else if pyStrip e.title = "" ∨ pyStrip e.link = "" then
      processEntries env brand_id rest st picked
    else if resolve_final_url env (pyStrip e.link) ∈ st.existing_urls then
      processEntries env brand_id rest st picked
    else
      processEntries env brand_id rest
        ⟨resolve_final_url env (pyStrip e.link) :: st.existing_urls,
         st.new_posts ++ [acceptPost env brand_id e (resolve_final_url env (pyStrip e.link))]⟩
        (picked + 1)

/-- The per-brand loop: build the query and feed URL, harvest the entries and
run the per-entry loop with a fresh `picked = 0` (an empty feed's `continue`
coincides with processing an empty entry list). -/
def processBrands (env : Env) : List (String × String) → LoopState → LoopState
  | [], st => st
  | (brand_id, brand_name) :: rest, st =>
    processBrands env rest
      (processEntries env brand_id
        (env.feedEntries (google_news_rss_url (normalize_brand_query brand_name)))
        st 0)

/-- The accepted batch of one run, given the loaded posts and brands: the
whole brand/entry loop starting from the seeded dedup index and an empty
batch. -/
def runNewPosts (env : Env) (posts : List PostDoc) (brands : List BrandDoc) :
    List PostDoc :=
  (processBrands env (brands.filterMap brandItem) ⟨seedUrls posts, []⟩).new_posts

/-- `main()`: load the three collections (a corrupt file raises before any
write), run the brand loop, rewrite `posts.json` only when the batch is
non-empty (new posts prepended), and always rewrite `_meta.json` with the run
summary. -/
def runMain (env : Env) (st : Store) : Except String Store :=
  match load_json st.postsFile [], load_json st.showsFile [],
        load_json st.brandsFile [] with
  | .error e, _, _ => .error e
  | .ok _, .error e, _ => .error e
  | .ok _, .ok _, .error e => .error e
  | .ok posts, .ok shows, .ok brands =>
    let new_posts := runNewPosts env posts brands
    let posts2 := if new_posts.isEmpty then posts else new_posts ++ posts
    .ok { postsFile := if new_posts.isEmpty then st.postsFile else .valid posts2
          showsFile := st.showsFile
          brandsFile := st.brandsFile
          metaFile := .valid
            { updatedAt := env.nowIso
              newPostsAdded := new_posts.length
              postsCount := posts2.length
              showsCount := shows.length
              brandsCount := brands.length } }

/-- The on-disk state after invoking the script once: the written store on
normal completion, the untouched input store when the run raised. -/
def runStore (env : Env) (st : Store) : Store :=
  match runMain env st with
  | .ok st2 => st2
  | .error _ => st

/-! ## Helper lemmas about the pipeline -/

/-- The resolved final URL of a non-empty link is non-empty: every branch of
`resolve_final_url` returns either the (non-empty) original or a non-empty
response URL. -/
theorem resolve_ne_empty (env : Env) (url : String) (h : url ≠ "") :
    resolve_final_url env url ≠ "" := by
  unfold resolve_final_url
  cases env.resolveResp url with
  | none => exact h
  | some ru =>
    by_cases hru : ru = ""
    · simpa [hru] using h
    · simp [hru]

/-- The per-entry loop only ever adds to the dedup set. -/
theorem processEntries_existing_mono (env : Env) (bid : String) :
    ∀ (es : List Entry) (st : LoopState) (k : Nat) (u : String),
      u ∈ st.existing_urls → u ∈ (processEntries env bid es st k).existing_urls := by
  intro es
  induction es with
  | nil => intro st k u hu; simpa [processEntries] using hu
  | cons e rest ih =>
    intro st k u hu
    simp only [processEntries]
    split_ifs with h1 h2 h3
    · exact hu
    · exact ih st k u hu
    · exact ih st k u hu
    · exact ih _ _ u (List.mem_cons_of_mem _ hu)

/-- The per-brand loop only ever adds to the dedup set. -/
theorem processBrands_existing_mono (env : Env) :
    ∀ (items : List (String × String)) (st : LoopState) (u : String),
      u ∈ st.existing_urls → u ∈ (processBrands env items st).existing_urls := by
  intro items
  induction items with
  | nil => intro st u hu; simpa [processBrands] using hu
  | cons pr rest ih =>
    obtain ⟨bid, bname⟩ := pr
    intro st u hu
    simp only [processBrands]
    exact ih _ u (processEntries_existing_mono env bid _ st 0 u hu)

/-- Cap accounting: the per-entry loop accepts at most
`MAX_ITEMS_PER_BRAND - picked` further posts. -/
theorem processEntries_cap (env : Env) (bid : String) :
    ∀ (es : List Entry) (st : LoopState) (k : Nat),
      (processEntries env bid es st k).new_posts.length ≤
        st.new_posts.length + (MAX_ITEMS_PER_BRAND - k) := by
  intro es
  induction es with
  | nil => intro st k; simp [processEntries]
  | cons e rest ih =>
    intro st k
    simp only [processEntries]
    split_ifs with h1 h2 h3
    · omega
    · have := ih st k; omega
    · have := ih st k; omega
    · have := ih ⟨resolve_final_url env (pyStrip e.link) :: st.existing_urls,
        st.new_posts ++ [acceptPost env bid e (resolve_final_url env (pyStrip e.link))]⟩ (k + 1)
      simp only [List.length_append, List.length_singleton] at this
      omega

/-- The dedup/batch invariant maintained by the loops, relative to the initial
seed set `S0`: the seeds stay in the dedup set; every accepted post carries a
non-empty `sourceUrl` (and no legacy field) that is in the dedup set but was
not a seed; accepted posts have pairwise-distinct `sourceUrl`s; and every URL
in the dedup set is a seed or the `sourceUrl` of an accepted post. -/
structure LoopInv (S0 : List String) (st : LoopState) : Prop where
  seed_sub : ∀ u ∈ S0, u ∈ st.existing_urls
  posts_src : ∀ p ∈ st.new_posts, ∃ u, p.sourceUrl = some u ∧ p.source_url = none ∧
    u ≠ "" ∧ u ∈ st.existing_urls ∧ u ∉ S0
  nodup : st.new_posts.Pairwise (fun p q => p.sourceUrl ≠ q.sourceUrl)
  exist_cover : ∀ u ∈ st.existing_urls, u ∈ S0 ∨ ∃ p ∈ st.new_posts, p.sourceUrl = some u

/-- The per-entry loop preserves the dedup/batch invariant. -/
theorem processEntries_inv (env : Env) (bid : String) (S0 : List String) :
    ∀ (es : List Entry) (st : LoopState) (k : Nat),
      LoopInv S0 st → LoopInv S0 (processEntries env bid es st k) := by
  intro es
  induction es with
  | nil => intro st k h; simpa [processEntries] using h
  | cons e rest ih =>
    intro st k h
    simp only [processEntries]
    split_ifs with h1 h2 h3
    · exact h
    · exact ih st k h
    · exact ih st k h
    · apply ih
      push_neg at h2
      have hw : resolve_final_url env (pyStrip e.link) ≠ "" :=
        resolve_ne_empty env _ h2.2
      constructor
      · exact fun u hu => List.mem_cons_of_mem _ (h.seed_sub u hu)
      · intro p hp
        rcases List.mem_append.mp hp with hp | hp
        · obtain ⟨u, h1u, h2u, h3u, h4u, h5u⟩ := h.posts_src p hp
          exact ⟨u, h1u, h2u, h3u, List.mem_cons_of_mem _ h4u, h5u⟩
        · rw [List.mem_singleton] at hp
          subst hp
          refine ⟨resolve_final_url env (pyStrip e.link), rfl, rfl, hw,
            List.mem_cons_self _ _, fun hS0 => h3 (h.seed_sub _ hS0)⟩
      · rw [List.pairwise_append]
        refine ⟨h.nodup, List.pairwise_singleton _ _, ?_⟩
        intro p hp q hq
        rw [List.mem_singleton] at hq
        subst hq
        obtain ⟨u, h1u, _, _, h4u, _⟩ := h.posts_src p hp
        rw [h1u]
        intro hcontra
        apply h3
        have : u = resolve_final_url env (pyStrip e.link) := by
          simpa [acceptPost] using hcontra
        rwa [← this]
      · intro u hu
        rcases List.mem_cons.mp hu with rfl | hu
        · exact Or.inr ⟨acceptPost env bid e (resolve_final_url env (pyStrip e.link)),
            List.mem_append_right _ (List.mem_singleton_self _), rfl⟩
        · rcases h.exist_cover u hu with hS | ⟨p, hp, hsrc⟩
          · exact Or.inl hS
          · exact Or.inr ⟨p, List.mem_append_left _ hp, hsrc⟩

/-- The per-brand loop preserves the dedup/batch invariant. -/
theorem processBrands_inv (env : Env) (S0 : List String) :
    ∀ (items : List (String × String)) (st : LoopState),
      LoopInv S0 st → LoopInv S0 (processBrands env items st) := by
  intro items
  induction items with
  | nil => intro st h; simpa [processBrands] using h
  | cons pr rest ih =>
    obtain ⟨bid, bname⟩ := pr
    intro st h
    simp only [processBrands]
    exact ih _ (processEntries_inv env bid S0 _ st 0 h)

/-- The invariant holds for the whole run's loop, seeded from the loaded
posts. -/
theorem runNewPosts_inv (env : Env) (posts : List PostDoc) (brands : List BrandDoc) :
    LoopInv (seedUrls posts)
      (processBrands env (brands.filterMap brandItem) ⟨seedUrls posts, []⟩) := by
  apply processBrands_inv
  exact ⟨fun u hu => hu, by simp, by simp, fun u hu => Or.inl hu⟩

/-- `sourceUrl` membership in the dedup seeds: any post of the collection with
a non-empty `sourceUrl` contributes it (the `or` chain prefers `sourceUrl`
over the legacy name). -/
theorem mem_seedUrls (l : List PostDoc) (p : PostDoc) (u : String)
    (hp : p ∈ l) (h1 : p.sourceUrl = some u) (h3 : u ≠ "") : u ∈ seedUrls l := by
  have hs : seedUrl p = u := by simp [seedUrl, orElseStr, h1, h3]
  unfold seedUrls
  rw [List.mem_filter]
  exact ⟨List.mem_map.mpr ⟨p, hp, hs⟩, by simp [h3]⟩

/-- An entry the per-entry loop would skip against dedup set `S`: empty
trimmed title, empty trimmed link, or resolved URL already in `S`. -/
def entrySkipped (env : Env) (S : List String) (e : Entry) : Prop :=
  pyStrip e.title = "" ∨ pyStrip e.link = "" ∨
    resolve_final_url env (pyStrip e.link) ∈ S

/-- `entrySkipped` is monotone in the dedup set. -/
theorem entrySkipped_mono (env : Env) {S S' : List String} (e : Entry)
    (hss : ∀ u ∈ S, u ∈ S') (h : entrySkipped env S e) : entrySkipped env S' e := by
  rcases h with h | h | h
  · exact Or.inl h
  · exact Or.inr (Or.inl h)
  · exact Or.inr (Or.inr (hss _ h))

/-- Feed coverage: when a brand's feed fits under the cap (so the loop never
breaks early), every entry of the feed is skippable against the loop's final
dedup set — it was either rejected for an empty title/link, or its resolved
URL ended up in the set (as a duplicate or by being accepted). -/
theorem processEntries_cover (env : Env) (bid : String) :
    ∀ (es : List Entry) (st : LoopState) (k : Nat),
      es.length + k ≤ MAX_ITEMS_PER_BRAND →
      ∀ e ∈ es, entrySkipped env (processEntries env bid es st k).existing_urls e := by
  intro es
  induction es with
  | nil => intro st k _ e he; cases he
  | cons e0 rest ih =>
    intro st k hlen e he
    simp only [List.length_cons] at hlen
    simp only [processEntries]
    split_ifs with h1 h2 h3
    · omega
    · rcases List.mem_cons.mp he with rfl | he
      · rcases h2 with h2 | h2
        · exact Or.inl h2
        · exact Or.inr (Or.inl h2)
      · exact ih st k (by omega) e he
    · rcases List.mem_cons.mp he with rfl | he
      · exact Or.inr (Or.inr (processEntries_existing_mono env bid rest st k _ h3))
      · exact ih st k (by omega) e he
    · rcases List.mem_cons.mp he with rfl | he
      · exact Or.inr (Or.inr (processEntries_existing_mono env bid rest _ (k + 1) _
          (List.mem_cons_self _ _)))
      · exact ih _ (k + 1) (by omega) e he

/-- Brand-loop coverage: when every brand's feed fits under the cap, every
entry of every brand's feed is skippable against the loop's final dedup
set. -/
theorem processBrands_cover (env : Env) :
    ∀ (items : List (String × String)) (st : LoopState),
      (∀ pr ∈ items,
        (env.feedEntries (google_news_rss_url (normalize_brand_query pr.2))).length ≤
          MAX_ITEMS_PER_BRAND) →
      ∀ pr ∈ items,
        ∀ e ∈ env.feedEntries (google_news_rss_url (normalize_brand_query pr.2)),
          entrySkipped env (processBrands env items st).existing_urls e := by
  intro items
  induction items with
  | nil => intro st _ pr hpr; cases hpr
  | cons pr0 rest ih =>
    obtain ⟨bid, bname⟩ := pr0
    intro st hfit pr hpr e he
    simp only [processBrands]
    rcases List.mem_cons.mp hpr with rfl | hpr
    · have h0 := processEntries_cover env bid
        (env.feedEntries (google_news_rss_url (normalize_brand_query bname))) st 0
        (by simpa using hfit (bid, bname) (List.mem_cons_self _ _)) e he
      exact entrySkipped_mono env e
        (fun u hu => processBrands_existing_mono env rest _ u hu) h0
    · exact ih _ (fun q hq => hfit q (List.mem_cons_of_mem _ hq)) pr hpr e he

/-- If every entry is skippable against the current dedup set, the per-entry
loop is a no-op. -/
theorem processEntries_skip (env : Env) (bid : String) :
    ∀ (es : List Entry) (st : LoopState) (k : Nat),
      (∀ e ∈ es, entrySkipped env st.existing_urls e) →
      processEntries env bid es st k = st := by
  intro es
  induction es with
  | nil => intro st k _; simp [processEntries]
  | cons e0 rest ih =>
    intro st k h
    have h0 := h e0 (List.mem_cons_self _ _)
    simp only [processEntries]
    split_ifs with h1 h2 h3
    · rfl
    · exact ih st k fun e he => h e (List.mem_cons_of_mem _ he)
    · exact ih st k fun e he => h e (List.mem_cons_of_mem _ he)
    · exfalso
      push_neg at h2
      rcases h0 with h0 | h0 | h0
      · exact h2.1 h0
      · exact h2.2 h0
      · exact h3 h0

/-- If every entry of every brand's feed is skippable against the current
dedup set, the whole brand loop is a no-op. -/
theorem processBrands_skip (env : Env) :
    ∀ (items : List (String × String)) (st : LoopState),
      (∀ pr ∈ items,
        ∀ e ∈ env.feedEntries (google_news_rss_url (normalize_brand_query pr.2)),
          entrySkipped env st.existing_urls e) →
      processBrands env items st = st := by
  intro items
  induction items with
  | nil => intro st _; simp [processBrands]
  | cons pr0 rest ih =>
    obtain ⟨bid, bname⟩ := pr0
    intro st h
    simp only [processBrands]
    rw [processEntries_skip env bid _ st 0 (h (bid, bname) (List.mem_cons_self _ _))]
    exact ih st fun q hq => h q (List.mem_cons_of_mem _ hq)

/-- The seed set only grows when posts are prepended to the collection. -/
theorem seedUrls_append_sub (l1 l2 : List PostDoc) :
    ∀ u ∈ seedUrls l2, u ∈ seedUrls (l1 ++ l2) := by
  intro u hu
  unfold seedUrls at *
  rw [List.mem_filter] at hu ⊢
  refine ⟨?_, hu.2⟩
  rw [List.map_append, List.mem_append]
  exact Or.inr hu.1

/-- Closed form of a successful run: loads given, `runMain` rewrites
`posts.json` exactly when the accepted batch is non-empty (batch prepended)
and always rewrites `_meta.json` with the run summary. -/
theorem runMain_ok (env : Env) (st : Store) (posts : List PostDoc)
    (shows : List Unit) (brands : List BrandDoc)
    (hlp : load_json st.postsFile [] = .ok posts)
    (hls : load_json st.showsFile [] = .ok shows)
    (hlb : load_json st.brandsFile [] = .ok brands) :
    runMain env st = .ok
      { postsFile := if (runNewPosts env posts brands).isEmpty then st.postsFile
                     else .valid (runNewPosts env posts brands ++ posts)
        showsFile := st.showsFile
        brandsFile := st.brandsFile
        metaFile := .valid
          { updatedAt := env.nowIso
            newPostsAdded := (runNewPosts env posts brands).length
            postsCount := (if (runNewPosts env posts brands).isEmpty then posts
                           else runNewPosts env posts brands ++ posts).length
            showsCount := shows.length
            brandsCount := brands.length } } := by
  simp only [runMain, hlp, hls, hlb]
  by_cases h : (runNewPosts env posts brands).isEmpty <;> simp [h]

/-! ## Claim C1: the concrete end-to-end scenario -/

/-- The C1 scenario environment: the single feed entry `{title: "Acme show",
link: "https://ex.com/a"}` with no timestamps, redirect resolution returning
its input unchanged, preview extraction finding nothing (exception), and the
run happening on 2024-05-17 UTC. -/
def env1 : Env where
  resolveResp := fun u => some u
  ogResp := fun _ => none
  feedEntries := fun _ => [{ title := "Acme show", link := "https://ex.com/a",
                             published := none, updated := none }]
  now := ⟨2024, 5, 17, 0, 0, 0⟩
  nowIso := "2024-05-17T00:00:00Z"

/-- The C1 scenario store: empty `posts.json`, no `shows.json`, one brand
`{id: "b1", name: "Acme"}`. -/
def store1 : Store where
  postsFile := .valid []
  showsFile := .missing
  brandsFile := .valid [.obj (some "b1") (some "Acme")]
  metaFile := .missing

/-- The post the C1 scenario is expected to persist. -/
def post1 : PostDoc where
  id := some (slug_id "https://ex.com/a")
  brandId := some "b1"
  title := some "Acme show"
  date := some (now_ymd env1)
  city := none
  season := none
  heroImageUrl := none
  sourceUrl := some "https://ex.com/a"
  source_url := none
  media := []

/-- C1: end-to-end scenario — one brand, an empty existing collection, one
fresh feed entry with no timestamp, identity redirect resolution and absent
preview.  The run persists exactly one post with `brandId "b1"`, title
`"Acme show"`, source URL `"https://ex.com/a"`, no hero image, id
`slug_id "https://ex.com/a"`, date the run's current UTC calendar day, and
the metadata records `newPostsAdded = 1`, `postsCount = 1`. -/
theorem c1_concrete_scenario :
    runMain env1 store1 = .ok
      { postsFile := .valid [post1]
        showsFile := .missing
        brandsFile := .valid [.obj (some "b1") (some "Acme")]
        metaFile := .valid
          { updatedAt := "2024-05-17T00:00:00Z", newPostsAdded := 1,
            postsCount := 1, showsCount := 0, brandsCount := 1 } } ∧
    post1.brandId = some "b1" ∧ post1.title = some "Acme show" ∧
    post1.sourceUrl = some "https://ex.com/a" ∧ post1.heroImageUrl = none ∧
    post1.id = some (slug_id "https://ex.com/a") ∧
    post1.date = some (now_ymd env1) ∧ now_ymd env1 = "2024-05-17" :=
  ⟨by rfl, rfl, rfl, rfl, rfl, rfl, rfl, rfl⟩

/-! ## Claim C3: corrupt store aborts before any write -/

/-- C3: if any of the three loaded collection documents is corrupt, the run
raises the decode error before performing any document write — the store
(including `_meta.json` and `posts.json`) is left exactly as it was. -/
theorem c3_corrupt_store_aborts (env : Env) (st : Store)
    (h : st.postsFile = .corrupt ∨ st.showsFile = .corrupt ∨
         st.brandsFile = .corrupt) :
    runMain env st = .error "JSONDecodeError" ∧ runStore env st = st := by
  have hmain : runMain env st = .error "JSONDecodeError" := by
    rcases hp : st.postsFile with _ | _ | lp <;>
      rcases hsh : st.showsFile with _ | _ | ls <;>
        rcases hb : st.brandsFile with _ | _ | lb <;>
          simp_all [runMain, load_json]
  exact ⟨hmain, by simp [runStore, hmain]⟩

/-- A trivial environment (every network call fails / yields nothing). -/
def envTriv : Env where
  resolveResp := fun _ => none
  ogResp := fun _ => none
  feedEntries := fun _ => []
  now := ⟨2024, 1, 1, 0, 0, 0⟩
  nowIso := ""

/-- A store whose posts document exists but is not parseable. -/
def corruptStore : Store where
  postsFile := .corrupt
  showsFile := .missing
  brandsFile := .missing
  metaFile := .missing

/-- Witness for C3 at a concrete corrupt store. -/
theorem c3_witness :
    (corruptStore.postsFile = .corrupt ∨ corruptStore.showsFile = .corrupt ∨
      corruptStore.brandsFile = .corrupt) ∧
    runMain envTriv corruptStore = .error "JSONDecodeError" ∧
    runStore envTriv corruptStore = corruptStore :=
  ⟨Or.inl rfl, c3_corrupt_store_aborts envTriv corruptStore (Or.inl rfl)⟩

/-! ## Claim C4: per-brand cap -/

/-- C4: for every brand processed in a run (the per-entry loop is entered
with `picked = 0` for each brand), at most `MAX_ITEMS_PER_BRAND` (8) new
posts are accepted from that brand's feed, however long the feed; skipped
entries (empty title/link, duplicates) do not count toward the cap. -/
theorem c4_per_brand_cap (env : Env) (brand_id : String) (entries : List Entry)
    (st : LoopState) :
    (processEntries env brand_id entries st 0).new_posts.length ≤
      st.new_posts.length + MAX_ITEMS_PER_BRAND := by
  have h := processEntries_cap env brand_id entries st 0
  simpa using h

/-! ## Claim C10: metadata counts raw documents -/

/-- C10: the run metadata's `brandsCount` is the length of the raw loaded
brands list (malformed entries that the per-brand loop silently excludes
included), and `showsCount` is likewise the raw shows length; the number of
brands actually searched, `(brands.filterMap brandItem).length`, is only
bounded by it. -/
theorem c10_meta_counts_raw (env : Env) (st st2 : Store) (posts : List PostDoc)
    (shows : List Unit) (brands : List BrandDoc)
    (hlp : load_json st.postsFile [] = .ok posts)
    (hls : load_json st.showsFile [] = .ok shows)
    (hlb : load_json st.brandsFile [] = .ok brands)
    (hrun : runMain env st = .ok st2) :
    ∃ m, st2.metaFile = .valid m ∧ m.brandsCount = brands.length ∧
      m.showsCount = shows.length ∧
      (brands.filterMap brandItem).length ≤ brands.length := by
  have h := runMain_ok env st posts shows brands hlp hls hlb
  rw [hrun] at h
  injection h with h
  subst h
  exact ⟨_, rfl, rfl, rfl, List.length_filterMap_le _ _⟩

/-- The C10 witness brands file: one well-formed brand and one lacking an
`id` (excluded from the loop but still counted). -/
def brandsC10 : List BrandDoc :=
  [.obj (some "b1") (some "Acme"), .obj none (some "NoId")]

/-- The C10 witness input store. -/
def storeC10 : Store where
  postsFile := .missing
  showsFile := .missing
  brandsFile := .valid brandsC10
  metaFile := .missing

/-- The C10 witness output store: `brandsCount = 2` although only one brand
was searched. -/
def storeC10out : Store where
  postsFile := .missing
  showsFile := .missing
  brandsFile := .valid brandsC10
  metaFile := .valid
    { updatedAt := "", newPostsAdded := 0, postsCount := 0, showsCount := 0,
      brandsCount := 2 }

/-- Witness for C10: with one malformed of two brand entries, `brandsCount`
is 2 while only 1 brand is searched. -/
theorem c10_witness :
    runMain envTriv storeC10 = .ok storeC10out ∧
    (brandsC10.filterMap brandItem).length = 1 ∧
    (∃ m, storeC10out.metaFile = .valid m ∧ m.brandsCount = brandsC10.length ∧
      m.showsCount = ([] : List Unit).length ∧
      (brandsC10.filterMap brandItem).length ≤ brandsC10.length) :=
  ⟨by rfl, by rfl,
    c10_meta_counts_raw envTriv storeC10 storeC10out [] [] brandsC10
      rfl rfl rfl (by rfl)⟩

/-! ## Claim C2: uniqueness of `sourceUrl` in the persisted collection -/

/-- The accepted batch has pairwise-distinct `sourceUrl`s. -/
theorem runNewPosts_nodup (env : Env) (posts : List PostDoc) (brands : List BrandDoc) :
    (runNewPosts env posts brands).Pairwise (fun p q => p.sourceUrl ≠ q.sourceUrl) :=
  (runNewPosts_inv env posts brands).nodup

/-- Every accepted post carries a non-empty `sourceUrl` (and no legacy field)
that was not among the dedup seeds of the loaded collection. -/
theorem runNewPosts_src (env : Env) (posts : List PostDoc) (brands : List BrandDoc) :
    ∀ p ∈ runNewPosts env posts brands, ∃ u, p.sourceUrl = some u ∧
      p.source_url = none ∧ u ≠ "" ∧ u ∉ seedUrls posts := by
  intro p hp
  obtain ⟨u, h1, h2, h3, _, h5⟩ := (runNewPosts_inv env posts brands).posts_src p hp
  exact ⟨u, h1, h2, h3, h5⟩

/-- C2: a run that completes on a collection whose posts all have non-empty,
pairwise-distinct `sourceUrl`s persists a collection with pairwise-distinct
`sourceUrl`s — each accepted URL is checked against the seeded dedup set and
the URLs accepted earlier in the run. -/
theorem c2_sourceUrl_unique (env : Env) (st st2 : Store) (posts : List PostDoc)
    (hlp : load_json st.postsFile [] = .ok posts)
    (hrun : runMain env st = .ok st2)
    (hne : ∀ p ∈ posts, p.sourceUrl.getD "" ≠ "")
    (hnd : posts.Pairwise (fun p q => p.sourceUrl ≠ q.sourceUrl)) :
    (docList st2.postsFile).Pairwise (fun p q => p.sourceUrl ≠ q.sourceUrl) := by
  rcases hs : load_json st.showsFile ([] : List Unit) with e | shows
  · simp only [runMain, hlp, hs] at hrun
    exact (Except.noConfusion hrun)
  rcases hb : load_json st.brandsFile ([] : List BrandDoc) with e | brands
  · simp only [runMain, hlp, hs, hb] at hrun
    exact (Except.noConfusion hrun)
  have h := runMain_ok env st posts shows brands hlp hs hb
  rw [hrun] at h
  injection h with h
  subst h
  by_cases hemp : (runNewPosts env posts brands).isEmpty
  · simp only [hemp, if_pos]
    rcases hpf : st.postsFile with _ | _ | l
    · simp [docList]
    · rw [hpf] at hlp; simp [load_json] at hlp
    · rw [hpf] at hlp
      simp only [load_json, Except.ok.injEq] at hlp
      subst hlp
      exact hnd
  · simp only [hemp, if_neg, Bool.false_eq_true, not_false_eq_true, docList]
    rw [List.pairwise_append]
    refine ⟨runNewPosts_nodup env posts brands, hnd, ?_⟩
    intro p hp q hq
    obtain ⟨u, h1u, _, _, h5u⟩ := runNewPosts_src env posts brands p hp
    have hneq := hne q hq
    rcases hq2 : q.sourceUrl with _ | v
    · rw [hq2] at hneq; simp at hneq
    · rw [hq2] at hneq
      simp only [Option.getD_some] at hneq
      have hvS0 : v ∈ seedUrls posts := mem_seedUrls posts q v hq hq2 hneq
      rw [h1u]
      intro hc
      injection hc with hc
      subst hc
      exact h5u hvS0

/-- Witness posts for C2: two loaded posts with distinct non-empty source
URLs. -/
def postsW2 : List PostDoc :=
  [{ id := some "a", brandId := some "b1", title := some "t1", date := some "2024-01-01",
     city := none, season := none, heroImageUrl := none,
     sourceUrl := some "https://w.com/1", source_url := none, media := [] },
   { id := some "b", brandId := some "b1", title := some "t2", date := some "2024-01-02",
     city := none, season := none, heroImageUrl := none,
     sourceUrl := some "https://w.com/2", source_url := none, media := [] }]

/-- The C2 witness input store. -/
def storeW2 : Store where
  postsFile := .valid postsW2
  showsFile := .missing
  brandsFile := .valid []
  metaFile := .missing

/-- The C2 witness output store (no brands, so nothing is accepted). -/
def storeW2out : Store where
  postsFile := .valid postsW2
  showsFile := .missing
  brandsFile := .valid []
  metaFile := .valid
    { updatedAt := "", newPostsAdded := 0, postsCount := 2, showsCount := 0,
      brandsCount := 0 }

/-- Witness for C2 at a concrete store with two distinct-URL posts. -/
theorem c2_witness :
    runMain envTriv storeW2 = .ok storeW2out ∧
    (docList storeW2out.postsFile).Pairwise (fun p q => p.sourceUrl ≠ q.sourceUrl) :=
  ⟨by rfl,
    c2_sourceUrl_unique envTriv storeW2 storeW2out postsW2 rfl (by rfl)
      (by decide) (by decide)⟩

/-! ## Claim C5: no-op frame condition -/

/-- C5: a completed run with an empty accepted batch leaves `posts.json`
untouched while still rewriting `_meta.json` with `newPostsAdded = 0` and
`postsCount` the loaded count; a run with a non-empty batch rewrites
`posts.json` as the batch (in production order) prepended to the loaded
collection. -/
theorem c5_noop_frame (env : Env) (st st2 : Store) (posts : List PostDoc)
    (shows : List Unit) (brands : List BrandDoc)
    (hlp : load_json st.postsFile [] = .ok posts)
    (hls : load_json st.showsFile [] = .ok shows)
    (hlb : load_json st.brandsFile [] = .ok brands)
    (hrun : runMain env st = .ok st2) :
    (runNewPosts env posts brands = [] →
      st2.postsFile = st.postsFile ∧
      st2.metaFile = .valid
        { updatedAt := env.nowIso, newPostsAdded := 0, postsCount := posts.length,
          showsCount := shows.length, brandsCount := brands.length }) ∧
    (runNewPosts env posts brands ≠ [] →
      st2.postsFile = .valid (runNewPosts env posts brands ++ posts)) := by
  have h := runMain_ok env st posts shows brands hlp hls hlb
  rw [hrun] at h
  injection h with h
  subst h
  constructor
  · intro h0
    simp [h0]
  · intro h0
    have hemp : (runNewPosts env posts brands).isEmpty = false := by
      simpa [List.isEmpty_iff] using h0
    simp [hemp]

/-- Witness for C5: the no-op case at a concrete store (no searchable brand
accepts anything), `posts.json` untouched, `_meta.json` rewritten with
`newPostsAdded = 0`. -/
theorem c5_witness :
    storeC10out.postsFile = storeC10.postsFile ∧
    storeC10out.metaFile = .valid
      { updatedAt := "", newPostsAdded := 0,
        postsCount := ([] : List PostDoc).length,
        showsCount := ([] : List Unit).length,
        brandsCount := brandsC10.length } :=
  (c5_noop_frame envTriv storeC10 storeC10out [] [] brandsC10
    rfl rfl rfl (by rfl)).1 (by rfl)

/-! ## Claim C6: `slug_id` is pure, deterministic, 16 lowercase hex chars -/

/-- A SHA-1 hexdigest has exactly 40 characters. -/
theorem sha1HexChars_length (msg : List Nat) : (sha1HexChars msg).length = 40 := by
  simp [sha1HexChars, toHex8]

/-- A hex digit of a nibble is a lowercase hexadecimal character. -/
theorem hexDigit_mod_isLowerHex (n : Nat) : isLowerHex (hexDigit (n % 16)) = true := by
  have h : n % 16 < 16 := Nat.mod_lt _ (by norm_num)
  set m := n % 16 with hm
  interval_cases m <;> decide

/-- Every character of a fixed-width hex word rendering is lowercase hex. -/
theorem toHex8_isLowerHex (w : Nat) (c : Char) (hc : c ∈ toHex8 w) :
    isLowerHex c = true := by
  simp only [toHex8, List.mem_cons, List.not_mem_nil, or_false] at hc
  rcases hc with rfl | rfl | rfl | rfl | rfl | rfl | rfl | rfl <;>
    apply hexDigit_mod_isLowerHex

/-- C6: `slug_id` is a pure deterministic function of its input (equal inputs
give equal identifiers, with no ambient state), it is by definition the first
16 characters of the SHA-1 hexdigest of the input, and its output is always
exactly 16 lowercase hexadecimal characters. -/
theorem c6_slug_id_pure_hex :
    (∀ s t : String, s = t → slug_id s = slug_id t) ∧
    (∀ s : String, slug_id s = String.mk ((sha1HexChars (strBytes s)).take 16)) ∧
    (∀ s : String, (slug_id s).length = 16) ∧
    (∀ s : String, ∀ c ∈ (slug_id s).toList, isLowerHex c = true) := by
  refine ⟨fun s t h => by rw [h], fun s => rfl, fun s => ?_, fun s c hc => ?_⟩
  · show ((sha1HexChars (strBytes s)).take 16).length = 16
    rw [List.length_take, sha1HexChars_length]
    rfl
  · have hc2 : c ∈ (sha1HexChars (strBytes s)).take 16 := hc
    have hc3 : c ∈ sha1HexChars (strBytes s) := List.take_subset _ _ hc2
    simp only [sha1HexChars, List.mem_append] at hc3
    rcases hc3 with ((((h | h) | h) | h) | h) <;> exact toHex8_isLowerHex _ _ h

/-- Witness for C6 at a concrete URL string. -/
theorem c6_witness :
    ("https://ex.com/a" = "https://ex.com/a") ∧
    slug_id "https://ex.com/a" = slug_id "https://ex.com/a" ∧
    (slug_id "https://ex.com/a").length = 16 :=
  ⟨rfl, c6_slug_id_pure_hex.1 "https://ex.com/a" "https://ex.com/a" rfl,
    c6_slug_id_pure_hex.2.2.1 "https://ex.com/a"⟩

/-! ## Claim C7: date normalization fallback chain -/

/-- C7: an accepted entry produces exactly the post built by `acceptPost`,
whose date is the UTC calendar day of the `published` timestamp when present,
else of the `updated` timestamp when present, else the run's current UTC
calendar day — the struct's calendar fields are formatted directly, with no
local-timezone conversion. -/
theorem c7_date_fallback_chain (env : Env) (brand_id : String) (e : Entry)
    (rest : List Entry) (st : LoopState) (picked : Nat)
    (hcap : picked < MAX_ITEMS_PER_BRAND)
    (ht : pyStrip e.title ≠ "") (hl : pyStrip e.link ≠ "")
    (hdup : resolve_final_url env (pyStrip e.link) ∉ st.existing_urls) :
    processEntries env brand_id (e :: rest) st picked =
      processEntries env brand_id rest
        ⟨resolve_final_url env (pyStrip e.link) :: st.existing_urls,
         st.new_posts ++
           [acceptPost env brand_id e (resolve_final_url env (pyStrip e.link))]⟩
        (picked + 1) ∧
    (acceptPost env brand_id e (resolve_final_url env (pyStrip e.link))).date = some
      (match e.published with
       | some tm => iso_to_ymd tm
       | none =>
         match e.updated with
         | some tm => iso_to_ymd tm
         | none => now_ymd env) := by
  constructor
  · simp only [processEntries]
    rw [if_neg (by omega : ¬ MAX_ITEMS_PER_BRAND ≤ picked),
        if_neg (not_or.mpr ⟨ht, hl⟩), if_neg hdup]
  · simp only [acceptPost, parse_entry_date]
    cases e.published <;> cases e.updated <;> rfl

/-- The C7 witness entry: both timestamps present, `published` must win. -/
def entryW7 : Entry where
  title := "t"
  link := "https://w.com/7"
  published := some ⟨2023, 1, 2, 3, 4, 5⟩
  updated := some ⟨2020, 9, 9, 0, 0, 0⟩

/-- Witness for C7: the accepted post's date is the `published` day. -/
theorem c7_witness :
    (acceptPost envTriv "b1" entryW7
      (resolve_final_url envTriv (pyStrip entryW7.link))).date = some "2023-01-02" := by
  have h := c7_date_fallback_chain envTriv "b1" entryW7 [] ⟨[], []⟩ 0
    (by decide) (by decide) (by decide) (by simp)
  rw [h.2]
  rfl

/-! ## Claim C8: preview extraction totality and absence conditions

The claim as stated is refuted by tag shadowing: `soup.find` by `property`
wins even when its tag has empty content, so a by-`name` og:image tag with
perfectly good content can be ignored.  The amended absence condition is
phrased in terms of the *selected* tag (first by-property match if any
exists, else first by-name match). -/

/-- Amended spec-side absence condition for preview extraction: the fetch
raised, or the response has failure status or non-HTML content type, or no
og:image tag is selected (first by-property match, else first by-name match),
or the selected tag's content is missing/empty, or its stripped value does
not start with `http`. -/
def ogImageAbsent (env : Env) (url : String) : Prop :=
  env.ogResp url = none ∨
  ∃ r, env.ogResp url = some r ∧
    (r.ok = false ∨ contentTypeHtml r = false ∨ ogTag r = none ∨
     ∃ t, ogTag r = some t ∧
       (t.content = none ∨ t.content = some "" ∨
        ∃ c, t.content = some c ∧ pyStartsWith (pyStrip c) "http" = false))

/-- C8 (amended): `try_get_og_image` is total (it is a function into
`Option`), returns `none` exactly under the amended absence conditions, and
otherwise returns the stripped content of the selected og:image tag. -/
theorem c8_preview_absence_amended (env : Env) (url : String) :
    (try_get_og_image env url = none ↔ ogImageAbsent env url) ∧
    (∀ img, try_get_og_image env url = some img →
      ∃ r t c, env.ogResp url = some r ∧ r.ok = true ∧ contentTypeHtml r = true ∧
        ogTag r = some t ∧ t.content = some c ∧ c ≠ "" ∧ img = pyStrip c ∧
        pyStartsWith img "http" = true) := by
  unfold try_get_og_image ogImageAbsent
  rcases hr : env.ogResp url with _ | r
  · simp
  · simp only [Option.some.injEq, exists_eq_left', reduceCtorEq, false_or]
    by_cases hok : r.ok = true ∧ contentTypeHtml r = true
    · rw [if_neg (not_not_intro hok)]
      rcases htag : ogTag r with _ | t
      · simp [hok.1, hok.2]
      · rcases hc : t.content with _ | c
        · simp [hok.1, hok.2, hc]
        · by_cases hce : c = ""
          · subst hce
            simp [hok.1, hok.2, hc]
          · by_cases hsw : pyStartsWith (pyStrip c) "http" = true
            · constructor
              · simp [hok.1, hok.2, hc, hce, hsw]
              · intro img heq
                simp only [hc] at heq
                rw [if_pos hce, if_pos hsw] at heq
                injection heq with heq
                subst heq
                exact ⟨r, t, c, rfl, hok.1, hok.2, htag, hc, hce, rfl, hsw⟩
            · constructor
              · simp only [Bool.not_eq_true] at hsw
                simp [hok.1, hok.2, hc, hce, hsw]
              · intro img heq
                simp [hc, hce, hsw] at heq
    · rw [if_pos hok]
      rw [not_and_or] at hok
      constructor
      · refine iff_of_true rfl ?_
        rcases hok with hok | hok
        · exact Or.inl (by simpa using hok)
        · exact Or.inr (Or.inl (by simpa using hok))
      · intro img heq
        exact (Option.noConfusion heq)

/-- The C8 witness response: one og:image tag with strippable content. -/
def respW8 : OgResponse where
  ok := true
  contentType := some "text/html; charset=utf-8"
  metas := [⟨some "og:image", none, some " http://a/b.png "⟩]

/-- The C8 witness environment. -/
def envW8 : Env where
  resolveResp := fun _ => none
  ogResp := fun _ => some respW8
  feedEntries := fun _ => []
  now := ⟨2024, 1, 1, 0, 0, 0⟩
  nowIso := ""

/-- Witness for C8 in the success case: the stripped og:image value is
returned. -/
theorem c8_witness :
    try_get_og_image envW8 "https://w" = some "http://a/b.png" ∧
    (∃ r t c, envW8.ogResp "https://w" = some r ∧ r.ok = true ∧
      contentTypeHtml r = true ∧ ogTag r = some t ∧ t.content = some c ∧
      c ≠ "" ∧ "http://a/b.png" = pyStrip c ∧
      pyStartsWith "http://a/b.png" "http" = true) :=
  ⟨by rfl, (c8_preview_absence_amended envW8 "https://w").2 "http://a/b.png" (by rfl)⟩

/-- The C8 counterexample response: a by-`property` og:image tag with *empty*
content shadows a by-`name` og:image tag with non-empty, absolute-URL
content. -/
def cexResp8 : OgResponse where
  ok := true
  contentType := some "text/html; charset=utf-8"
  metas := [⟨some "og:image", none, some ""⟩,
            ⟨none, some "og:image", some "http://img.example/x.jpg"⟩]

/-- The C8 counterexample environment. -/
def cexEnv8 : Env where
  resolveResp := fun _ => none
  ogResp := fun _ => some cexResp8
  feedEntries := fun _ => []
  now := ⟨2024, 1, 1, 0, 0, 0⟩
  nowIso := ""

/-- The shadowed og:image tag of the C8 counterexample. -/
def cexTag8 : MetaTag where
  property := none
  name := some "og:image"
  content := some "http://img.example/x.jpg"

/-- Counterexample to C8 as stated: the fetch succeeds with OK status and
HTML content type, an og:image meta tag (by name) with non-empty content
whose stripped value starts with `http` exists, and no exception occurs —
yet the extractor returns `none`, because the first by-`property` og:image
tag has empty content and shadows it. -/
theorem c8_cex :
    try_get_og_image cexEnv8 "https://page" = none ∧
    cexEnv8.ogResp "https://page" = some cexResp8 ∧
    cexResp8.ok = true ∧ contentTypeHtml cexResp8 = true ∧
    cexTag8 ∈ cexResp8.metas ∧ cexTag8.name = some "og:image" ∧
    cexTag8.content = some "http://img.example/x.jpg" ∧
    "http://img.example/x.jpg" ≠ "" ∧
    pyStartsWith (pyStrip "http://img.example/x.jpg") "http" = true :=
  ⟨by rfl, rfl, rfl, by rfl, by decide, rfl, rfl, by decide, by rfl⟩

/-! ## Claim C9: idempotence of a second run

The claim as stated is refuted by the per-brand cap: a feed with more than
`MAX_ITEMS_PER_BRAND` fresh entries is truncated by the first run, and the
second run accepts the entries past the cap.  The amended claim adds the
proviso that no brand's feed is longer than the cap. -/

/-- After one run, every entry of every (cap-fitting) brand feed is skippable
against the dedup seeds of the merged collection. -/
theorem runNewPosts_cover (env : Env) (posts : List PostDoc) (brands : List BrandDoc)
    (hfit : ∀ pr ∈ brands.filterMap brandItem,
      (env.feedEntries (google_news_rss_url (normalize_brand_query pr.2))).length ≤
        MAX_ITEMS_PER_BRAND) :
    ∀ pr ∈ brands.filterMap brandItem,
      ∀ e ∈ env.feedEntries (google_news_rss_url (normalize_brand_query pr.2)),
        entrySkipped env (seedUrls (runNewPosts env posts brands ++ posts)) e := by
  intro pr hpr e he
  have hcov := processBrands_cover env (brands.filterMap brandItem)
    ⟨seedUrls posts, []⟩ hfit pr hpr e he
  apply entrySkipped_mono env e ?_ hcov
  intro u hu
  rcases (runNewPosts_inv env posts brands).exist_cover u hu with hS | ⟨p, hp, hsrc⟩
  · exact seedUrls_append_sub _ _ u hS
  · obtain ⟨u2, h1, _, h3, _, _⟩ := (runNewPosts_inv env posts brands).posts_src p hp
    rw [h1] at hsrc
    injection hsrc with hsrc
    subst hsrc
    exact mem_seedUrls _ p u2 (List.mem_append_left _ hp) h1 h3

/-- C9 (amended): a second run against the same environment (same feeds,
same redirect resolution) and the store produced by a completed first run
accepts zero new posts and leaves the post collection unchanged — provided
no brand's feed yields more entries than the per-brand cap (8). -/
theorem c9_idempotent_amended (env : Env) (st st1 : Store)
    (posts : List PostDoc) (shows : List Unit) (brands : List BrandDoc)
    (hlp : load_json st.postsFile [] = .ok posts)
    (hls : load_json st.showsFile [] = .ok shows)
    (hlb : load_json st.brandsFile [] = .ok brands)
    (hrun : runMain env st = .ok st1)
    (hfit : ∀ pr ∈ brands.filterMap brandItem,
      (env.feedEntries (google_news_rss_url (normalize_brand_query pr.2))).length ≤
        MAX_ITEMS_PER_BRAND) :
    ∃ st2 m, runMain env st1 = .ok st2 ∧ st2.postsFile = st1.postsFile ∧
      st2.metaFile = .valid m ∧ m.newPostsAdded = 0 := by
  have h := runMain_ok env st posts shows brands hlp hls hlb
  rw [hrun] at h
  injection h with h
  subst h
  have hskip : runNewPosts env (runNewPosts env posts brands ++ posts) brands = [] := by
    show (processBrands env (brands.filterMap brandItem)
      ⟨seedUrls (runNewPosts env posts brands ++ posts), []⟩).new_posts = []
    rw [processBrands_skip env _ _ (runNewPosts_cover env posts brands hfit)]
  have hload2 : load_json (if (runNewPosts env posts brands).isEmpty then st.postsFile
      else FileState.valid (runNewPosts env posts brands ++ posts)) [] =
      Except.ok (runNewPosts env posts brands ++ posts) := by
    by_cases hemp : (runNewPosts env posts brands).isEmpty
    · rw [if_pos hemp]
      rw [List.isEmpty_iff] at hemp
      rw [hemp, List.nil_append]
      exact hlp
    · rw [if_neg hemp]
      rfl
  have h2 := runMain_ok env
    { postsFile := if (runNewPosts env posts brands).isEmpty then st.postsFile
                   else FileState.valid (runNewPosts env posts brands ++ posts)
      showsFile := st.showsFile
      brandsFile := st.brandsFile
      metaFile := .valid
        { updatedAt := env.nowIso
          newPostsAdded := (runNewPosts env posts brands).length
          postsCount := (if (runNewPosts env posts brands).isEmpty then posts
                         else runNewPosts env posts brands ++ posts).length
          showsCount := shows.length
          brandsCount := brands.length } }
    (runNewPosts env posts brands ++ posts) shows brands hload2 hls hlb
  rw [hskip] at h2
  exact ⟨_, _, h2, by simp, rfl, by simp⟩

/-- The C1 scenario's output store (also the input of the C9 witness's
second run). -/
def store1out : Store where
  postsFile := .valid [post1]
  showsFile := .missing
  brandsFile := .valid [.obj (some "b1") (some "Acme")]
  metaFile := .valid
    { updatedAt := "2024-05-17T00:00:00Z", newPostsAdded := 1,
      postsCount := 1, showsCount := 0, brandsCount := 1 }

/-- Witness for C9 (amended) on the one-entry scenario: the second run adds
zero posts. -/
theorem c9_witness :
    runMain env1 store1 = .ok store1out ∧
    (∃ st2 m, runMain env1 store1out = .ok st2 ∧
      st2.postsFile = store1out.postsFile ∧ st2.metaFile = .valid m ∧
      m.newPostsAdded = 0) :=
  ⟨by rfl,
    c9_idempotent_amended env1 store1 store1out [] []
      [.obj (some "b1") (some "Acme")] rfl rfl rfl (by rfl) (by decide)⟩

/-- The C9 counterexample feed entry `i`. -/
def entC9 (i : Nat) : Entry where
  title := "t"
  link := "https://e.com/" ++ toString i
  published := none
  updated := none

/-- The C9 counterexample environment: a single brand whose feed yields 9
fresh entries (one more than the cap), identity redirect resolution, no
previews. -/
def envC9 : Env where
  resolveResp := fun u => some u
  ogResp := fun _ => none
  feedEntries := fun _ => (List.range 9).map entC9
  now := ⟨2024, 5, 17, 0, 0, 0⟩
  nowIso := "Z"

/-- The C9 counterexample initial store: empty posts, one brand. -/
def storeC9 : Store where
  postsFile := .valid []
  showsFile := .missing
  brandsFile := .valid [.obj (some "b") (some "B")]
  metaFile := .missing

/-- The store after the first counterexample run. -/
def st1C9 : Store := runStore envC9 storeC9

/-- The store after the second counterexample run. -/
def st2C9 : Store := runStore envC9 st1C9

/-- The `newPostsAdded` field the run metadata reports (0 when absent). -/
def metaNewPostsAdded (st : Store) : Nat :=
  match st.metaFile with
  | .valid m => m.newPostsAdded
  | _ => 0

/-- Counterexample to C9 as stated: with a 9-entry feed, the first run
accepts the cap of 8 posts; the second run — same feed, same resolved URLs,
starting from the first run's persisted collection — accepts 1 further post
(the entry past the cap) instead of 0, growing the collection from 8 to 9. -/
theorem c9_cex :
    metaNewPostsAdded st1C9 = 8 ∧ metaNewPostsAdded st2C9 = 1 ∧
    (docList st1C9.postsFile).length = 8 ∧ (docList st2C9.postsFile).length = 9 :=
  ⟨by rfl, by rfl, by rfl, by rfl⟩

end UpdateData
